import Mathlib

/-!
Shallow embedding of `autoInstallFiles/esxi/7.0/upgrade/precheck.py`:
the ESXi install/upgrade precheck engine.  Pure functions of the source
are translated into executable Lean definitions; values read from the
host platform (memory size, CPU identity, PCI inventory, ...) become
explicit parameters of the corresponding check functions.  Severity
codes are kept as the literal strings used by the `Result` class.
-/

namespace Precheck

/-- `Result.SUCCESS` / `Result.WARNING` / `Result.ERROR` string constants. -/
def SUCCESS : String := "SUCCESS"

def WARNING : String := "WARNING"

def ERROR : String := "ERROR"

/-- `SIZE_MiB = 1024 * 1024` from the source. -/
def SIZE_MiB : ℕ := 1024 * 1024

/-- Embedding of the `Result` class: `found`/`expected` value sequences,
the error message and the severity `code` computed at construction.
The element type is a parameter because different checks store numbers,
booleans or device records in `found`. -/
structure Result (α : Type) where
  name : String
  found : List α
  expected : List α
  errorMsg : String
  code : String
deriving Repr

/-- `Result.__init__`: severity is computed once at construction.
`mismatchCode` is an optional argument; a falsy value (Python `None` or
the empty string) is replaced by `ERROR`.  `code` is `SUCCESS` iff
`comparator found expected` holds, else the mismatch code. -/
def mkResult {α : Type} (name : String) (found expected : List α)
    (comparator : List α → List α → Bool) (errorMsg : String)
    (mismatchCode : Option String) : Result α :=
  let mc := match mismatchCode with
    | none => ERROR
    | some s => if s = "" then ERROR else s
  { name := name, found := found, expected := expected, errorMsg := errorMsg,
    code := if comparator found expected then SUCCESS else mc }

/-- The `PciInfo` value type: vendor/device/subsystem identity strings.
`subsystem` is `none` when the Python object stores `None`. -/
structure PciInfo where
  vendorId : String
  deviceId : String
  subsystem : Option String
  description : String
deriving Repr, DecidableEq

/-- `PciInfo.__init__`: vendor and device ids are lower-cased; a truthy
subsystem is lower-cased, a falsy one (`None`, `""`) is stored as given.
Since `"".lower() == ""`, this is exactly `Option.map String.toLower`. -/
def mkPciInfo (vendorId deviceId : String) (subsystem : Option String)
    (description : String) : PciInfo :=
  { vendorId := vendorId.toLower
    deviceId := deviceId.toLower
    subsystem := subsystem.map String.toLower
    description := description }

/-- `PciInfo.__eq__`: when either side's subsystem `is None`, only vendor
and device ids are compared; otherwise all three id fields. -/
def pciEq (a rhs : PciInfo) : Bool :=
  if a.subsystem.isNone || rhs.subsystem.isNone then
    a.vendorId == rhs.vendorId && a.deviceId == rhs.deviceId
  else
    a.vendorId == rhs.vendorId && a.deviceId == rhs.deviceId &&
      a.subsystem == rhs.subsystem

/-- `PciInfo.__ne__`: field-by-field disjunction over all three id
fields (the `description` field is not compared). -/
def pciNe (a rhs : PciInfo) : Bool :=
  a.vendorId != rhs.vendorId || a.deviceId != rhs.deviceId ||
    a.subsystem != rhs.subsystem

/-- `memorySizeComparator(found, expected)`: lets the found memory go as
much as 3.125% below the expected minimum.  The source indexes `[0]` of
each sequence; both call-site arguments are singleton lists.  The float
arithmetic is exact here (`0.03125 = 2^-5` and all values involved are
well below `2^53`), so rationals embed it faithfully. -/
def memorySizeComparator (found expected : List ℚ) : Bool :=
  match found, expected with
  | f :: _, e :: _ => decide (f ≥ e - (0.03125 : ℚ) * e)
  | _, _ => false

/-- `checkMemorySize`: the physical memory size read from the platform
is the `found` parameter; `MEM_MIN_SIZE = (4 * 1024) * SIZE_MiB`. -/
def checkMemorySize (found : ℕ) : Result ℚ :=
  let MEM_MIN_SIZE : ℚ := (4 * 1024 : ℚ) * (SIZE_MiB : ℚ)
  mkResult "MEMORY_SIZE" [(found : ℚ)] [MEM_MIN_SIZE] memorySizeComparator
    "The memory is less than recommended" (some ERROR)

/-- Python list `<` comparison: lexicographic, a strict prefix is
smaller. -/
def pyListLt : List ℤ → List ℤ → Bool
  | [], [] => false
  | [], _ :: _ => true
  | _ :: _, [] => false
  | x :: xs, y :: ys => if x < y then true else if y < x then false else pyListLt xs ys

/-- `upgradePathComparator(newVersion, installedVersion)`: reject an
unknown (empty) installed version, reject downgrades, reject installed
versions before the `[6, 5]` baseline, accept otherwise. -/
def upgradePathComparator (newVersion installedVersion : List ℤ) : Bool :=
  if installedVersion.isEmpty then false
  else if pyListLt newVersion installedVersion then false
  else if pyListLt installedVersion [6, 5] then false
  else true

/-- Payload kinds: the source compares `payload.payloadtype` against the
`TYPE_BOOT` constant; only boot vs non-boot matters to the logic. -/
inductive PayloadType where
  | boot
  | other
deriving DecidableEq, Repr

/-- One payload of a VIB: a byte size and a payload kind. -/
structure Payload where
  size : ℕ
  payloadtype : PayloadType
deriving Repr, DecidableEq

/-- One package unit (VIB): its software tags (`swtags`, `none` when the
attribute is absent, cf. `hasattr(vib, 'swtags')`) and its payloads. -/
structure Vib where
  swtags : Option (List String)
  payloads : List Payload
deriving Repr

/-- Loop body of `ImageMetadata._calcImageSize`: add the payload size,
and add it a second time for boot payloads (packaged twice). -/
def payloadSizeStep (t : ℕ) (p : Payload) : ℕ :=
  let t1 := t + p.size
  if p.payloadtype = PayloadType.boot then t1 + p.size else t1

/-- `ImageMetadata._calcImageSize`: iterate over all payloads of all
VIBs, then add a fixed `10 * SIZE_MiB` fudge factor. -/
def calcImageSize (vibs : List Vib) : ℕ :=
  vibs.foldl (fun total vib => vib.payloads.foldl payloadSizeStep total) 0 +
    10 * SIZE_MiB

/-- The per-VIB payload fold as a closed sum. -/
theorem payloadFoldl_eq (ps : List Payload) (t : ℕ) :
    ps.foldl payloadSizeStep t =
      t + (ps.map Payload.size).sum +
        ((ps.filter fun p => p.payloadtype = PayloadType.boot).map
          Payload.size).sum := by
  induction ps generalizing t with
  | nil => simp
  | cons p ps ih =>
    by_cases h : p.payloadtype = PayloadType.boot <;>
      simp [payloadSizeStep, h, ih] <;> ring

/-- The outer VIB fold as a closed sum. -/
theorem vibFoldl_eq (vibs : List Vib) (t : ℕ) :
    vibs.foldl (fun total vib => vib.payloads.foldl payloadSizeStep total) t =
      t + (vibs.map fun v => (v.payloads.map Payload.size).sum).sum +
        (vibs.map fun v =>
          ((v.payloads.filter fun p => p.payloadtype = PayloadType.boot).map
            Payload.size).sum).sum := by
  induction vibs generalizing t with
  | nil => simp
  | cons v vibs ih =>
    rw [List.foldl_cons, ih, payloadFoldl_eq]
    simp only [List.map_cons, List.sum_cons]
    ring

/-- Exception-propagation semantics of
`results = [testFn() for testFn in tests]` in `upgradeAction`,
`installAction`, `cliUpgradeAction` and `main`: each check either
returns a `Result` or raises (the `Except.error` case); a raise aborts
the whole comprehension. -/
def runCheckList {α : Type} :
    List (Except String (Result α)) → Except String (List (Result α))
  | [] => Except.ok []
  | Except.error e :: _ => Except.error e
  | Except.ok r :: rest =>
    match runCheckList rest with
    | Except.error e => Except.error e
    | Except.ok rs => Except.ok (r :: rs)

/-- The check loop of `imageManagerAction`: run each check in order and
bucket its result by severity; a check that raises aborts the loop. -/
def imageManagerLoop {α : Type} :
    List (Except String (Result α)) → List (Result α) × List (Result α) →
      Except String (List (Result α) × List (Result α))
  | [], acc => Except.ok acc
  | Except.error e :: _, _ => Except.error e
  | Except.ok result :: rest, acc =>
    if result.code = ERROR then
      imageManagerLoop rest (acc.1 ++ [result], acc.2)
    else if result.code = WARNING then
      imageManagerLoop rest (acc.1, acc.2 ++ [result])
    else
      imageManagerLoop rest acc

/-- `imageManagerAction` aggregation over its check list. -/
def imageManagerRun {α : Type}
    (tests : List (Except String (Result α))) :
    Except String (List (Result α) × List (Result α)) :=
  imageManagerLoop tests ([], [])

/-- `SystemProbeESXi.WEASEL_ENV`. -/
def WEASEL_ENV : String := "weasel"

/-- `SystemProbeESXi.VUM_ENV`. -/
def VUM_ENV : String := "vum"

/-- `SystemProbeESXi.ESXCLI_ENV`. -/
def ESXCLI_ENV : String := "esxcli"

/-- `CPU_ERROR` message of `checkCpuSupported`. -/
def CPU_ERROR_MSG : String :=
  "The CPU in this host is not supported by ESXi 7.0.0. Please refer to the VMware Compatibility Guide (VCG) for the list of supported CPUs."

/-- `CPU_WARNING` message of `checkCpuSupported`. -/
def CPU_WARNING_MSG : String :=
  "The CPU in this host may not be supported in future ESXi releases. Please plan accordingly."

/-- `checkCpuSupported`: the CPU vendor/family/model read from the
platform and the `allowLegacyCPU` boot option are parameters, as is the
probe's environment (`systemProbe.vumEnvironment` is
`environment == VUM_ENV`).  Mirrors the source: the CPU table yields an
error-message/mismatch-code pair, a would-be warning is silenced (by
setting `found = True`) exactly in the VUM environment, and
`allowLegacyCPU` downgrades an error to a warning. -/
def checkCpuSupported (environment vendor : String) (family model : ℕ)
    (allowLegacyCPU : Bool) : Result Bool :=
  let em :=
    if vendor = "GenuineIntel" then
      if family = 0x06 ∧ (model = 0x2a ∨ model = 0x2d ∨ model = 0x3a) then
        (CPU_WARNING_MSG, WARNING)
      else if family = 0x0f ∨ (family = 0x06 ∧ model ≤ 0x36) then
        (CPU_ERROR_MSG, ERROR)
      else ("", SUCCESS)
    else if vendor = "AuthenticAMD" then
      if family < 0x15 then (CPU_ERROR_MSG, ERROR)
      else if family = 0x15 ∧ model ≤ 0x01 then (CPU_WARNING_MSG, WARNING)
      else ("", SUCCESS)
    else ("", SUCCESS)
  let found : Bool := decide (environment = VUM_ENV ∧ em.2 = WARNING)
  let mismatchCode := if allowLegacyCPU ∧ em.2 = ERROR then WARNING else em.2
  mkResult "CPU_SUPPORT" [found] [true] (fun f e => f == e) em.1
    (some mismatchCode)

/-- Truthiness of the `subsystem` attribute (`if not device.subsystem`):
falsy for Python `None` and for the empty string. -/
def pyFalsySub : Option String → Bool
  | none => true
  | some s => s == ""

/-- The loop of `checkUnsupportedDevices` producing its `found` list:
a probed device is kept when it compares equal (`PciInfo.__eq__`) to
some denylist entry and — when the probed device has no subsystem — the
denylist additionally holds a matching entry whose subsystem is `None`.
The static denylist is the `UNSUPPORTED_PCI_DEVICE_LIST` table, passed
here as a parameter (the spec treats it as a pure lookup table). -/
def checkUnsupportedDevicesFound (denylist probed : List PciInfo) :
    List PciInfo :=
  probed.foldl (fun found device =>
    if denylist.any (fun pci => pciEq pci device) then
      if pyFalsySub device.subsystem then
        if ((denylist.filter (fun pci => pciEq device pci)).map
            PciInfo.subsystem).contains none then
          found ++ [device]
        else found
      else found ++ [device]
    else found) []

/-- The reporting condition of `checkUnsupportedDevices` for a single
probed device. -/
def unsupportedPred (denylist : List PciInfo) (device : PciInfo) : Bool :=
  denylist.any (fun pci => pciEq pci device) &&
    (!(pyFalsySub device.subsystem) ||
      ((denylist.filter (fun pci => pciEq device pci)).map
        PciInfo.subsystem).contains none)

/-- A fold whose step appends the element exactly when a predicate
holds is an append of the filtered list. -/
theorem foldl_append_filter {α : Type} (p : α → Bool)
    (f : List α → α → List α)
    (hf : ∀ a x, f a x = if p x then a ++ [x] else a) :
    ∀ (l acc : List α), l.foldl f acc = acc ++ l.filter p := by
  intro l
  induction l with
  | nil => simp
  | cons x l ih =>
    intro acc
    rw [List.foldl_cons, hf, List.filter_cons]
    by_cases hx : p x = true <;> simp [hx, ih]

/-- The found-list of `checkUnsupportedDevices` is the probed inventory
filtered by the per-device reporting condition. -/
theorem unsupportedFound_eq_filter (denylist probed : List PciInfo) :
    checkUnsupportedDevicesFound denylist probed =
      probed.filter (unsupportedPred denylist) := by
  have hstep : ∀ (a : List PciInfo) (x : PciInfo),
      (if denylist.any (fun pci => pciEq pci x) then
        if pyFalsySub x.subsystem then
          if ((denylist.filter (fun pci => pciEq x pci)).map
              PciInfo.subsystem).contains none then
            a ++ [x]
          else a
        else a ++ [x]
      else a) = if unsupportedPred denylist x then a ++ [x] else a := by
    intro a x
    by_cases hA : denylist.any (fun pci => pciEq pci x) = true <;>
      by_cases hF : pyFalsySub x.subsystem = true <;>
        by_cases hN : ((denylist.filter (fun pci => pciEq x pci)).map
          PciInfo.subsystem).contains none = true <;>
        simp only [unsupportedPred, hA, hF, hN, Bool.not_true, Bool.not_false,
          Bool.false_or, Bool.true_or, Bool.or_true, Bool.true_and,
          Bool.false_and, Bool.and_true, Bool.and_false, if_true, if_false] <;>
        simp [hN]
  exact (foldl_append_filter (unsupportedPred denylist) _ hstep probed []).trans
    (by simp)

/-- `NATIVE_PCI_CLASS_DRIVER`: PCI classes that always have native
class drivers (AHCI, NVMe). -/
def NATIVE_PCI_CLASS_DRIVER : List String := ["010601", "010802"]

/-- `SOFTWARE_ADAPTER`: software storage adapters treated as having
native drivers. -/
def SOFTWARE_ADAPTER : List String := ["iscsi_vmk", "qfle3f"]

/-- `'%0*x'` formatting: lower-case hex digits of `n`, left-padded with
zeros to width `w` (never truncated). -/
def hexPad (w n : ℕ) : String :=
  let ds := Nat.toDigits 16 n
  ⟨List.replicate (w - ds.length) '0' ++ ds⟩

/-- The numeric part of the `(vmhba|vmnic)(0|([1-9][0-9]*))\Z` device
name pattern: a single `0`, or a nonzero digit followed by digits. -/
def numericNoLeadingZero : List Char → Bool
  | [] => false
  | ['0'] => true
  | c :: rest => decide ('1' ≤ c ∧ c ≤ '9') && rest.all Char.isDigit

/-- Full match of a VMkernel name against
`(vmhba|vmnic)(0|([1-9][0-9]*))\Z`. -/
def isVmhbaVmnicName (s : String) : Bool :=
  (s.data.take 5 == "vmhba".data || s.data.take 5 == "vmnic".data) &&
    numericNoLeadingZero (s.data.drop 5)

/-- One character step of `re.match(driverTag, hwId)`: a PCIID driver
tag consists of `[0-9a-z.]` characters where `.` is a wildcard, and
`re.match` anchors at the start only, so the tag must match a prefix of
the hardware id. -/
def wildcardPrefix : List Char → List Char → Bool
  | [], _ => true
  | _ :: _, [] => false
  | t :: ts, h :: hs => (t == '.' || t == h) && wildcardPrefix ts hs

/-- `re.match(driverTag, hwId)` as used on PCIID tags. -/
def tagMatch (tag hwId : String) : Bool :=
  wildcardPrefix tag.data hwId.data

/-- Python `\s` character class. -/
def isPySpace (c : Char) : Bool :=
  c == ' ' || c == '\t' || c == '\n' || c == '\r' || c == '\x0b' || c == '\x0c'

/-- The `[0-9a-z.]` character class of a PCIID tag body. -/
def isTagChar (c : Char) : Bool :=
  c.isDigit || ('a' ≤ c && c ≤ 'z') || c == '.'

/-- `re.match(r"PCIID\s+(?P<id>[0-9a-z.]*)\s*\Z", tag)`, returning the
captured id.  The character classes are disjoint, so the maximal-run
parse below is exactly the backtracking regex semantics. -/
def parsePciidTag (s : String) : Option String :=
  if s.data.take 5 == "PCIID".data then
    let rest := s.data.drop 5
    let ws := rest.takeWhile isPySpace
    if ws.isEmpty then none
    else
      let rest2 := rest.drop ws.length
      let tagId := rest2.takeWhile isTagChar
      let rest3 := rest2.drop tagId.length
      if rest3.all isPySpace then some ⟨tagId⟩ else none
  else none

/-- The `[0-9A-Fa-f:.]` character class of an sbdf address. -/
def isSbdfChar (c : Char) : Bool :=
  c.isDigit || ('a' ≤ c && c ≤ 'f') || ('A' ≤ c && c ≤ 'F') ||
    c == ':' || c == '.'

/-- `re.match(r"\((?P<sbdf>[0-9A-Fa-f:.]+)\)", description)`: the
description must start with `(`, then one or more sbdf characters, then
`)`; since `)` is not an sbdf character, the greedy run is exact. -/
def parseSbdf (description : String) : Option String :=
  match description.data with
  | '(' :: rest =>
    let run := rest.takeWhile isSbdfChar
    if run.isEmpty then none
    else
      match rest.drop run.length with
      | ')' :: _ => some ⟨run⟩
      | _ => none
  | _ => none

/-- One row of `localcli hardware pci list` (the fields consumed by
`_getNativeDevices`); the numeric fields are ints in the parsed
output. -/
structure PciDevice where
  vmkName : String
  address : String
  vendorId : ℕ
  deviceId : ℕ
  subVendorId : ℕ
  subDeviceId : ℕ
  deviceClass : ℕ
  pgmIf : ℕ
deriving Repr

/-- One row of `localcli storage core adapter list`. -/
structure Adapter where
  hbaName : String
  driver : String
  uid : String
  description : String
deriving Repr

/-- `classCode = '%04x%02x' % (pciClass, pgmIf)`. -/
def classCodeOf (d : PciDevice) : String :=
  hexPad 4 d.deviceClass ++ hexPad 2 d.pgmIf

/-- `hwId = '%04x%04x%04x%04x%s' % (vendId, devId, subVendId, subDevId,
classCode)`. -/
def hwIdOf (d : PciDevice) : String :=
  hexPad 4 d.vendorId ++ hexPad 4 d.deviceId ++ hexPad 4 d.subVendorId ++
    hexPad 4 d.subDeviceId ++ classCodeOf d

/-- Python dict assignment; only key membership (and the latest value,
via head-first lookup) is consumed by the algorithm. -/
def dictInsert (idx : List (String × String)) (k v : String) :
    List (String × String) :=
  (k, v) :: idx

/-- Python `key in dict.keys()`. -/
def dictHasKey (idx : List (String × String)) (k : String) : Bool :=
  idx.any (fun kv => kv.1 == k)

/-- PCIID tag extraction from the target profile's VIBs
(`for vib ...: if hasattr(vib, 'swtags'): for tag ...`). -/
def extractPciTags (vibs : List Vib) : List String :=
  vibs.foldl (fun acc vib =>
    match vib.swtags with
    | none => acc
    | some tags => acc ++ tags.filterMap parsePciidTag) []

/-- Per-device body of the `hardware pci list` loop of
`_getNativeDevices`: devices of a native PCI class are added to the
native set and their sbdf address is recorded in the index (then
`continue`); otherwise the hardware id is tested against every PCIID
driver tag. -/
def pciLoopStep (pciDriverTags : List String)
    (st : Finset String × List (String × String)) (device : PciDevice) :
    Finset String × List (String × String) :=
  if isVmhbaVmnicName device.vmkName then
    if classCodeOf device ∈ NATIVE_PCI_CLASS_DRIVER then
      (insert device.vmkName st.1, dictInsert st.2 device.address device.vmkName)
    else if pciDriverTags.any (fun t => tagMatch t (hwIdOf device)) then
      (insert device.vmkName st.1, st.2)
    else st
  else st

/-- The complete `hardware pci list` loop: native set and sbdf index. -/
def pciNativeScan (pciDriverTags : List String)
    (pciDevList : List PciDevice) :
    Finset String × List (String × String) :=
  pciDevList.foldl (pciLoopStep pciDriverTags) (∅, [])

/-- First adapter loop: record the sbdf address parsed from the
description of every adapter already known to be native. -/
def adapterIndexStep (nativeDevices : Finset String)
    (idx : List (String × String)) (adapter : Adapter) :
    List (String × String) :=
  match parseSbdf adapter.description with
  | some sbdf =>
    if adapter.hbaName ∈ nativeDevices then
      dictInsert idx sbdf adapter.hbaName
    else idx
  | none => idx

/-- Second adapter loop: usb-uid adapters and software adapters are
native by policy; a remaining adapter inherits native support when the
sbdf address in its description is in the index. -/
def adapterNativeStep (idx : List (String × String))
    (nativeDevices : Finset String) (adapter : Adapter) : Finset String :=
  if adapter.uid.startsWith "usb." then
    insert adapter.hbaName nativeDevices
  else if adapter.driver ∈ SOFTWARE_ADAPTER then
    insert adapter.hbaName nativeDevices
  else if adapter.hbaName ∉ nativeDevices then
    match parseSbdf adapter.description with
    | some sbdf =>
      if dictHasKey idx sbdf then insert adapter.hbaName nativeDevices
      else nativeDevices
    | none => nativeDevices
  else nativeDevices

/-- `SystemProbeESXi._getNativeDevices`, as a function of the target
profile's VIBs and the two inventories obtained from localcli. -/
def getNativeDevices (vibs : List Vib) (pciDevList : List PciDevice)
    (adapterList : List Adapter) : Finset String :=
  let pciDriverTags := extractPciTags vibs
  let st := pciNativeScan pciDriverTags pciDevList
  let idx := adapterList.foldl (adapterIndexStep st.1) st.2
  adapterList.foldl (adapterNativeStep idx) st.1

/-- C1: `PciInfo` equality on constructed identities: if either
subsystem is unset the case-normalized vendor and device ids decide
equality regardless of subsystem; if both subsystems are set, all three
fields must match. -/
theorem C1_pciinfo_eq (v1 d1 : String) (s1 : Option String) (x1 : String)
    (v2 d2 : String) (s2 : Option String) (x2 : String) :
    pciEq (mkPciInfo v1 d1 s1 x1) (mkPciInfo v2 d2 s2 x2) = true ↔
      (if s1 = none ∨ s2 = none then
        v1.toLower = v2.toLower ∧ d1.toLower = d2.toLower
      else
        v1.toLower = v2.toLower ∧ d1.toLower = d2.toLower ∧
          s1.map String.toLower = s2.map String.toLower) := by
  cases s1 <;> cases s2 <;> simp [pciEq, mkPciInfo, and_assoc]

/-- C2: `PciInfo` inequality is a field-by-field disjunction over the
three id fields, and it is not the negation of equality: a pair with
equal vendor and device ids and a subsystem set on exactly one side
satisfies both `==` and `!=`. -/
theorem C2_pciinfo_ne_quirk :
    (∀ a b : PciInfo, pciNe a b = true ↔
      (a.vendorId ≠ b.vendorId ∨ a.deviceId ≠ b.deviceId ∨
        a.subsystem ≠ b.subsystem)) ∧
    (∃ a b : PciInfo, a.vendorId = b.vendorId ∧ a.deviceId = b.deviceId ∧
      a.subsystem = none ∧ b.subsystem ≠ none ∧
      pciEq a b = true ∧ pciNe a b = true) := by
  constructor
  · intro a b
    simp [pciNe, or_assoc]
  · exact ⟨⟨"8086", "1075", none, ""⟩, ⟨"8086", "1075", some "1028:0001", ""⟩,
      rfl, rfl, rfl, by simp, by decide, by decide⟩

/-- The memory check code as an explicit threshold test. -/
theorem memCheckCode (n : ℕ) :
    (checkMemorySize n).code =
      if 4096 * (SIZE_MiB : ℚ) - 0.03125 * (4096 * (SIZE_MiB : ℚ)) ≤ (n : ℚ)
      then SUCCESS else ERROR := by
  have h4 : (4 * 1024 : ℚ) = 4096 := by norm_num
  simp only [checkMemorySize, mkResult, memorySizeComparator, h4, ge_iff_le]
  by_cases h : 4096 * (SIZE_MiB : ℚ) - 0.03125 * (4096 * (SIZE_MiB : ℚ)) ≤ (n : ℚ) <;>
    simp [h]

/-- C5: the memory check result is `SUCCESS` exactly when the found
value is at least `expected - 0.03125 * expected` with
`expected = 4096 MiB`, and `ERROR` otherwise; 3970 MiB passes,
3900 MiB fails, and the boundary is exactly 3968 MiB. -/
theorem C5_memory_size_check (found : ℕ) :
    ((checkMemorySize found).code = SUCCESS ↔
      (found : ℚ) ≥ 4096 * (SIZE_MiB : ℚ) - 0.03125 * (4096 * (SIZE_MiB : ℚ))) ∧
    ((checkMemorySize found).code = SUCCESS ∨
      (checkMemorySize found).code = ERROR) ∧
    (checkMemorySize (3970 * SIZE_MiB)).code = SUCCESS ∧
    (checkMemorySize (3900 * SIZE_MiB)).code = ERROR ∧
    (checkMemorySize (3968 * SIZE_MiB)).code = SUCCESS ∧
    (checkMemorySize (3968 * SIZE_MiB - 1)).code = ERROR := by
  refine ⟨?_, ?_, ?_, ?_, ?_, ?_⟩
  · rw [memCheckCode]
    split
    · next h => exact iff_of_true rfl h
    · next h => exact iff_of_false (by decide) h
  · rw [memCheckCode]
    split
    · exact Or.inl rfl
    · exact Or.inr rfl
  · rw [memCheckCode]
    rw [if_pos (by push_cast [SIZE_MiB]; norm_num)]
  · rw [memCheckCode]
    rw [if_neg (by push_cast [SIZE_MiB]; norm_num)]
  · rw [memCheckCode]
    rw [if_pos (by push_cast [SIZE_MiB]; norm_num)]
  · rw [memCheckCode]
    rw [if_neg (by push_cast [SIZE_MiB]; norm_num)]

/-- C6: the upgrade-path comparator rejects an unknown installed
version, rejects downgrades, rejects installed versions before the
`[6, 5]` baseline and accepts otherwise; with target `[7,0,0]`:
installed `[6,0,0]` rejected, `[6,7,0]` accepted, `[7,1,0]` rejected. -/
theorem C6_upgrade_path (nv iv : List ℤ) :
    (upgradePathComparator nv [] = false) ∧
    (pyListLt nv iv = true → upgradePathComparator nv iv = false) ∧
    (pyListLt iv [6, 5] = true → upgradePathComparator nv iv = false) ∧
    (iv ≠ [] → pyListLt nv iv = false → pyListLt iv [6, 5] = false →
      upgradePathComparator nv iv = true) ∧
    upgradePathComparator [7, 0, 0] [6, 0, 0] = false ∧
    upgradePathComparator [7, 0, 0] [6, 7, 0] = true ∧
    upgradePathComparator [7, 0, 0] [7, 1, 0] = false := by
  refine ⟨by simp [upgradePathComparator], ?_, ?_, ?_, by decide, by decide, by decide⟩
  · intro h
    simp [upgradePathComparator, h]
  · intro h
    simp [upgradePathComparator, h]
  · intro h1 h2 h3
    simp [upgradePathComparator, h1, h2, h3, List.isEmpty_iff]

/-- Witness for C6: concrete accepted upgrade from `[6, 7, 0]`. -/
theorem C6_upgrade_path_witness :
    ([6, 7, 0] : List ℤ) ≠ [] ∧
    upgradePathComparator [7, 0, 0] [6, 7, 0] = true :=
  ⟨by decide,
   (C6_upgrade_path [7, 0, 0] [6, 7, 0]).2.2.2.1 (by decide) (by decide) (by decide)⟩

/-- C4: the computed upgrade-image size is the sum of every payload's
size across every unit, with each boot-kind payload counted a second
time, plus exactly 10 MiB; one unit with a boot payload of size `S` and
a non-boot payload of size `T` yields `2*S + T + 10*2^20` bytes. -/
theorem C4_upgrade_image_size (vibs : List Vib) (S T : ℕ) :
    (calcImageSize vibs =
      (vibs.map fun v => (v.payloads.map Payload.size).sum).sum +
        (vibs.map fun v =>
          ((v.payloads.filter fun p => p.payloadtype = PayloadType.boot).map
            Payload.size).sum).sum +
        10 * 2 ^ 20) ∧
    calcImageSize
        [⟨none, [⟨S, PayloadType.boot⟩, ⟨T, PayloadType.other⟩]⟩] =
      2 * S + T + 10 * 2 ^ 20 := by
  constructor
  · rw [calcImageSize, vibFoldl_eq]
    norm_num [SIZE_MiB]
  · simp [calcImageSize, payloadSizeStep, SIZE_MiB]
    ring

/-- C3 counterexample: a run whose first check raises.  The orchestrator
evaluates to the propagated exception: the run is aborted, no
synthesized `ERROR` result appears, and the second (well-behaved) check
contributes nothing — contradicting the claimed swallow-and-continue
behavior, both for the comprehension-style entry points and for
`imageManagerAction`. -/
theorem C3_counterexample :
    runCheckList
        [Except.error "boom",
         Except.ok (mkResult "CPU_CORES" ([2] : List ℕ) [2]
           (fun f e => f == e) "" none)] =
      Except.error "boom" ∧
    imageManagerRun
        [Except.error "boom",
         Except.ok (mkResult "CPU_CORES" ([2] : List ℕ) [2]
           (fun f e => f == e) "" none)] =
      Except.error "boom" := ⟨rfl, rfl⟩

/-- C3 (amended): an exception raised inside one check propagates past
the orchestrator boundary: after any prefix of well-behaved checks, the
run evaluates to the raised exception, so no synthesized result is
produced and the remaining checks do not run. -/
theorem C3_exception_aborts_run (pre post : List (Except String (Result ℕ)))
    (e : String) (hpre : ∀ t ∈ pre, ∃ r, t = Except.ok r) :
    runCheckList (pre ++ Except.error e :: post) = Except.error e ∧
    imageManagerRun (pre ++ Except.error e :: post) = Except.error e := by
  constructor
  · induction pre with
    | nil => rfl
    | cons t rest ih =>
      obtain ⟨r, rfl⟩ := hpre t (List.mem_cons_self t rest)
      have h := ih (fun u hu => hpre u (List.mem_cons_of_mem _ hu))
      simp only [List.cons_append, runCheckList, List.append_eq, h]
  · rw [imageManagerRun]
    have key : ∀ (pre : List (Except String (Result ℕ)))
        (acc : List (Result ℕ) × List (Result ℕ)),
        (∀ t ∈ pre, ∃ r, t = Except.ok r) →
        imageManagerLoop (pre ++ Except.error e :: post) acc =
          Except.error e := by
      intro pre
      induction pre with
      | nil => intro acc _; rfl
      | cons t rest ih =>
        intro acc hp
        obtain ⟨r, rfl⟩ := hp t (List.mem_cons_self t rest)
        have h := fun acc => ih acc (fun u hu => hp u (List.mem_cons_of_mem _ hu))
        simp only [List.cons_append, imageManagerLoop]
        split <;> [skip; split] <;> exact h _
    exact key pre ([], []) hpre

/-- Witness for the amended C3 at a concrete run. -/
theorem C3_exception_aborts_run_witness :
    runCheckList
        [Except.ok (mkResult "SANE_ESX_CONF" ([1] : List ℕ) [1]
            (fun f e => f == e) "" none),
          Except.error "lost"] =
        Except.error "lost" ∧
      imageManagerRun
        [Except.ok (mkResult "SANE_ESX_CONF" ([1] : List ℕ) [1]
            (fun f e => f == e) "" none),
          Except.error "lost"] =
        Except.error "lost" := by
  have h := C3_exception_aborts_run
    [Except.ok (mkResult "SANE_ESX_CONF" ([1] : List ℕ) [1]
      (fun f e => f == e) "" none)] [] "lost"
    (by intro t ht
        simp only [List.mem_singleton] at ht
        exact ⟨_, ht⟩)
  simpa using h

/-- C9: for a deprecated CPU model (the WARNING rows of the CPU table),
the CPU-support check reports `SUCCESS` in the VUM environment while
the same CPU yields `WARNING` in the weasel and esxcli environments,
independent of the `allowLegacyCPU` option. -/
theorem C9_vum_cpu_warning_override (vendor : String) (family model : ℕ)
    (allow : Bool)
    (hdep : (vendor = "GenuineIntel" ∧ family = 0x06 ∧
        (model = 0x2a ∨ model = 0x2d ∨ model = 0x3a)) ∨
      (vendor = "AuthenticAMD" ∧ family = 0x15 ∧ model ≤ 0x01)) :
    (checkCpuSupported VUM_ENV vendor family model allow).code = SUCCESS ∧
    (checkCpuSupported WEASEL_ENV vendor family model allow).code = WARNING ∧
    (checkCpuSupported ESXCLI_ENV vendor family model allow).code = WARNING := by
  rcases hdep with ⟨hv, hf, hm⟩ | ⟨hv, hf, hm⟩
  · subst hv; subst hf
    rcases hm with rfl | rfl | rfl <;>
      simp [checkCpuSupported, mkResult, VUM_ENV, WEASEL_ENV, ESXCLI_ENV,
        SUCCESS, WARNING, ERROR]
  · subst hv; subst hf
    simp [checkCpuSupported, mkResult, hm, VUM_ENV, WEASEL_ENV, ESXCLI_ENV,
      SUCCESS, WARNING, ERROR]

/-- Witness for C9: Sandy Bridge desktop (family 6, model 0x2a). -/
theorem C9_vum_cpu_warning_override_witness :
    (checkCpuSupported VUM_ENV "GenuineIntel" 0x06 0x2a false).code =
      SUCCESS ∧
    (checkCpuSupported WEASEL_ENV "GenuineIntel" 0x06 0x2a false).code =
      WARNING ∧
    (checkCpuSupported ESXCLI_ENV "GenuineIntel" 0x06 0x2a false).code =
      WARNING :=
  C9_vum_cpu_warning_override "GenuineIntel" 0x06 0x2a false
    (Or.inl ⟨rfl, rfl, Or.inl rfl⟩)

/-- C10: in the unsupported-devices check, a probed device without a
subsystem id is reported exactly when the denylist holds an entry with
matching vendor and device ids and an unset subsystem; a probed device
with a subsystem id is reported exactly when some denylist entry
compares equal to it under `PciInfo.__eq__`. -/
theorem C10_unsupported_devices (denylist probed : List PciInfo)
    (d : PciInfo) :
    (d.subsystem = none →
      (d ∈ checkUnsupportedDevicesFound denylist probed ↔
        d ∈ probed ∧ ∃ e ∈ denylist, e.vendorId = d.vendorId ∧
          e.deviceId = d.deviceId ∧ e.subsystem = none)) ∧
    (pyFalsySub d.subsystem = false →
      (d ∈ checkUnsupportedDevicesFound denylist probed ↔
        d ∈ probed ∧ ∃ e ∈ denylist, pciEq e d = true)) := by
  constructor
  · intro hnone
    rw [unsupportedFound_eq_filter, List.mem_filter]
    refine and_congr_right fun _ => ?_
    simp only [unsupportedPred, hnone, pyFalsySub, Bool.not_true,
      Bool.false_or, Bool.and_eq_true, List.any_eq_true, List.contains,
      List.elem_eq_mem, decide_eq_true_eq, List.mem_map, List.mem_filter,
      pciEq, Option.isNone_none, Bool.true_or, Bool.or_true, if_true,
      Bool.and_eq_true, beq_iff_eq]
    constructor
    · rintro ⟨-, e, ⟨⟨he, hv, hd2⟩, hs⟩⟩
      exact ⟨e, he, hv.symm, hd2.symm, hs⟩
    · rintro ⟨e, he, hv, hd2, hs⟩
      exact ⟨⟨e, he, by simp [hv, hd2, hs]⟩, e, ⟨he, hv.symm, hd2.symm⟩, hs⟩
  · intro hfalse
    rw [unsupportedFound_eq_filter, List.mem_filter]
    refine and_congr_right fun _ => ?_
    simp [unsupportedPred, hfalse, List.any_eq_true]

/-- Witness for C10: a probed device with no subsystem is reported
because the denylist holds a matching subsystem-less entry. -/
theorem C10_unsupported_devices_witness :
    (⟨"9005", "0285", none, ""⟩ : PciInfo).subsystem = none ∧
    (⟨"9005", "0285", none, ""⟩ : PciInfo) ∈
      checkUnsupportedDevicesFound
        [⟨"9005", "0285", some "1014:02f2", ""⟩, ⟨"9005", "0285", none, ""⟩]
        [⟨"9005", "0285", none, ""⟩] :=
  ⟨rfl,
    ((C10_unsupported_devices
        [⟨"9005", "0285", some "1014:02f2", ""⟩, ⟨"9005", "0285", none, ""⟩]
        [⟨"9005", "0285", none, ""⟩]
        ⟨"9005", "0285", none, ""⟩).1 rfl).mpr
      (by refine ⟨by simp, ⟨"9005", "0285", none, ""⟩, by simp, rfl, rfl, rfl⟩)⟩

/-- The PCI loop body never removes a name from the native set. -/
theorem pciLoopStep_native_mem (tags : List String)
    (st : Finset String × List (String × String)) (d : PciDevice)
    (a : String) (ha : a ∈ st.1) : a ∈ (pciLoopStep tags st d).1 := by
  unfold pciLoopStep
  split
  · split
    · exact Finset.mem_insert_of_mem ha
    · split
      · exact Finset.mem_insert_of_mem ha
      · exact ha
  · exact ha

/-- The PCI loop body never removes a key from the sbdf index. -/
theorem pciLoopStep_key (tags : List String)
    (st : Finset String × List (String × String)) (d : PciDevice)
    (k : String) (hk : dictHasKey st.2 k = true) :
    dictHasKey (pciLoopStep tags st d).2 k = true := by
  unfold pciLoopStep
  split
  · split
    · simp only [dictHasKey, dictInsert, List.any_cons, Bool.or_eq_true]
      exact Or.inr hk
    · split
      · exact hk
      · exact hk
  · exact hk

/-- Folding the PCI loop preserves native-set membership. -/
theorem pciFold_native_mem (tags : List String) (l : List PciDevice)
    (st : Finset String × List (String × String)) (a : String)
    (ha : a ∈ st.1) : a ∈ (l.foldl (pciLoopStep tags) st).1 := by
  induction l generalizing st with
  | nil => exact ha
  | cons d l ih => exact ih _ (pciLoopStep_native_mem tags st d a ha)

/-- Folding the PCI loop preserves index keys. -/
theorem pciFold_key (tags : List String) (l : List PciDevice)
    (st : Finset String × List (String × String)) (k : String)
    (hk : dictHasKey st.2 k = true) :
    dictHasKey (l.foldl (pciLoopStep tags) st).2 k = true := by
  induction l generalizing st with
  | nil => exact hk
  | cons d l ih => exact ih _ (pciLoopStep_key tags st d k hk)

/-- A device of a native PCI class is added to the native set and its
address is recorded in the index by its own loop iteration. -/
theorem pciLoopStep_adds (tags : List String)
    (st : Finset String × List (String × String)) (d : PciDevice)
    (hname : isVmhbaVmnicName d.vmkName = true)
    (hclass : classCodeOf d ∈ NATIVE_PCI_CLASS_DRIVER) :
    d.vmkName ∈ (pciLoopStep tags st d).1 ∧
    dictHasKey (pciLoopStep tags st d).2 d.address = true := by
  unfold pciLoopStep
  rw [if_pos hname, if_pos hclass]
  refine ⟨Finset.mem_insert_self _ _, ?_⟩
  simp [dictHasKey, dictInsert]

/-- `pciNativeScan` marks every native-class device and records its
address, wherever it sits in the inventory. -/
theorem pciScan_adds (tags : List String) (l : List PciDevice)
    (d : PciDevice) (hmem : d ∈ l)
    (hname : isVmhbaVmnicName d.vmkName = true)
    (hclass : classCodeOf d ∈ NATIVE_PCI_CLASS_DRIVER) :
    d.vmkName ∈ (pciNativeScan tags l).1 ∧
    dictHasKey (pciNativeScan tags l).2 d.address = true := by
  unfold pciNativeScan
  have go : ∀ (l : List PciDevice) (st : Finset String × List (String × String)),
      d ∈ l →
      d.vmkName ∈ (l.foldl (pciLoopStep tags) st).1 ∧
      dictHasKey (l.foldl (pciLoopStep tags) st).2 d.address = true := by
    intro l
    induction l with
    | nil => intro st h; cases h
    | cons x l ih =>
      intro st hx
      rcases List.mem_cons.mp hx with rfl | hx2
      · refine ⟨?_, ?_⟩
        · exact pciFold_native_mem tags l _ _
            (pciLoopStep_adds tags st d hname hclass).1
        · exact pciFold_key tags l _ _
            (pciLoopStep_adds tags st d hname hclass).2
      · exact ih _ hx2
  exact go l _ hmem

/-- The second adapter loop body never removes a name. -/
theorem adapterNativeStep_mem (idx : List (String × String))
    (native : Finset String) (a : Adapter) (x : String)
    (hx : x ∈ native) : x ∈ adapterNativeStep idx native a := by
  unfold adapterNativeStep
  split
  · exact Finset.mem_insert_of_mem hx
  · split
    · exact Finset.mem_insert_of_mem hx
    · split
      · split
        · split
          · exact Finset.mem_insert_of_mem hx
          · exact hx
        · exact hx
      · exact hx

/-- Folding the second adapter loop preserves membership. -/
theorem adapterNativeFold_mem (idx : List (String × String))
    (l : List Adapter) (native : Finset String) (x : String)
    (hx : x ∈ native) : x ∈ l.foldl (adapterNativeStep idx) native := by
  induction l generalizing native with
  | nil => exact hx
  | cons a l ih => exact ih _ (adapterNativeStep_mem idx native a x hx)

/-- C7: every PCI row whose VMkernel name matches the vmhba/vmnic
pattern and whose class code is in `NATIVE_PCI_CLASS_DRIVER` (AHCI
`010601`, NVMe `010802`) ends up in the native-device set of
`_getNativeDevices` — independent of the profile's device tags — and
its sbdf address is a key of the bus-address index built by the PCI
scan. -/
theorem C7_native_class_unconditional (vibs : List Vib)
    (pciDevList : List PciDevice) (adapterList : List Adapter)
    (device : PciDevice) (hmem : device ∈ pciDevList)
    (hname : isVmhbaVmnicName device.vmkName = true)
    (hclass : classCodeOf device ∈ NATIVE_PCI_CLASS_DRIVER) :
    device.vmkName ∈ getNativeDevices vibs pciDevList adapterList ∧
    dictHasKey (pciNativeScan (extractPciTags vibs) pciDevList).2
      device.address = true := by
  have h := pciScan_adds (extractPciTags vibs) pciDevList device hmem hname hclass
  refine ⟨?_, h.2⟩
  simp only [getNativeDevices]
  exact adapterNativeFold_mem _ adapterList _ _ h.1

/-- Witness for C7: the spec's end-to-end example — a profile with one
unit tagged for PCI class `010601` and an inventory with one AHCI
storage device. -/
theorem C7_native_class_unconditional_witness :
    (⟨"vmhba0", "0000:00:11.4", 0x8086, 0x1234, 0x8086, 0x5678,
        0x0106, 0x01⟩ : PciDevice) ∈
      [(⟨"vmhba0", "0000:00:11.4", 0x8086, 0x1234, 0x8086, 0x5678,
        0x0106, 0x01⟩ : PciDevice)] ∧
    isVmhbaVmnicName "vmhba0" = true ∧
    classCodeOf (⟨"vmhba0", "0000:00:11.4", 0x8086, 0x1234, 0x8086, 0x5678,
        0x0106, 0x01⟩ : PciDevice) ∈ NATIVE_PCI_CLASS_DRIVER ∧
    "vmhba0" ∈ getNativeDevices
      [⟨some ["PCIID ............010601"], []⟩]
      [⟨"vmhba0", "0000:00:11.4", 0x8086, 0x1234, 0x8086, 0x5678,
        0x0106, 0x01⟩]
      [] := by
  refine ⟨List.mem_singleton.mpr rfl, by decide, by decide, ?_⟩
  exact (C7_native_class_unconditional
    [⟨some ["PCIID ............010601"], []⟩]
    [⟨"vmhba0", "0000:00:11.4", 0x8086, 0x1234, 0x8086, 0x5678,
      0x0106, 0x01⟩]
    []
    ⟨"vmhba0", "0000:00:11.4", 0x8086, 0x1234, 0x8086, 0x5678,
      0x0106, 0x01⟩
    (List.mem_singleton.mpr rfl) (by decide) (by decide)).1

/-- `List.any` is monotone under tag-list extension. -/
theorem any_mono {tags tags' : List String} (hsub : ∀ t ∈ tags, t ∈ tags')
    (p : String → Bool) (h : tags.any p = true) : tags'.any p = true := by
  simp only [List.any_eq_true] at h ⊢
  obtain ⟨t, ht, hp⟩ := h
  exact ⟨t, hsub t ht, hp⟩

/-- The PCI loop body is monotone in the tag list, the native set and
the index keys. -/
theorem pciLoopStep_mono (tags tags' : List String)
    (hsub : ∀ t ∈ tags, t ∈ tags')
    (st st' : Finset String × List (String × String))
    (h1 : st.1 ⊆ st'.1)
    (h2 : ∀ k, dictHasKey st.2 k = true → dictHasKey st'.2 k = true)
    (d : PciDevice) :
    (pciLoopStep tags st d).1 ⊆ (pciLoopStep tags' st' d).1 ∧
    (∀ k, dictHasKey (pciLoopStep tags st d).2 k = true →
      dictHasKey (pciLoopStep tags' st' d).2 k = true) := by
  unfold pciLoopStep
  by_cases hname : isVmhbaVmnicName d.vmkName = true
  · rw [if_pos hname, if_pos hname]
    by_cases hclass : classCodeOf d ∈ NATIVE_PCI_CLASS_DRIVER
    · rw [if_pos hclass, if_pos hclass]
      refine ⟨Finset.insert_subset_insert _ h1, ?_⟩
      intro k hk
      simp only [dictHasKey, dictInsert, List.any_cons, Bool.or_eq_true]
        at hk ⊢
      rcases hk with hk | hk
      · exact Or.inl hk
      · exact Or.inr (h2 k hk)
    · rw [if_neg hclass, if_neg hclass]
      by_cases hany : tags.any (fun t => tagMatch t (hwIdOf d)) = true
      · rw [if_pos hany, if_pos (any_mono hsub _ hany)]
        exact ⟨Finset.insert_subset_insert _ h1, h2⟩
      · rw [if_neg hany]
        by_cases hany2 : tags'.any (fun t => tagMatch t (hwIdOf d)) = true
        · rw [if_pos hany2]
          exact ⟨h1.trans (Finset.subset_insert _ _), h2⟩
        · rw [if_neg hany2]
          exact ⟨h1, h2⟩
  · rw [if_neg hname, if_neg hname]
    exact ⟨h1, h2⟩

/-- Folded version of `pciLoopStep_mono`. -/
theorem pciFold_mono (tags tags' : List String)
    (hsub : ∀ t ∈ tags, t ∈ tags') (l : List PciDevice) :
    ∀ st st' : Finset String × List (String × String), st.1 ⊆ st'.1 →
      (∀ k, dictHasKey st.2 k = true → dictHasKey st'.2 k = true) →
      (l.foldl (pciLoopStep tags) st).1 ⊆
        (l.foldl (pciLoopStep tags') st').1 ∧
      (∀ k, dictHasKey (l.foldl (pciLoopStep tags) st).2 k = true →
        dictHasKey (l.foldl (pciLoopStep tags') st').2 k = true) := by
  induction l with
  | nil => intro st st' h1 h2; exact ⟨h1, h2⟩
  | cons d l ih =>
    intro st st' h1 h2
    have hstep := pciLoopStep_mono tags tags' hsub st st' h1 h2 d
    exact ih _ _ hstep.1 hstep.2

/-- The index-building adapter-loop body is monotone in the native set
and the index keys. -/
theorem adapterIndexStep_mono (nat nat' : Finset String) (hn : nat ⊆ nat')
    (idx idx' : List (String × String))
    (h : ∀ k, dictHasKey idx k = true → dictHasKey idx' k = true)
    (a : Adapter) :
    ∀ k, dictHasKey (adapterIndexStep nat idx a) k = true →
      dictHasKey (adapterIndexStep nat' idx' a) k = true := by
  intro k hk
  unfold adapterIndexStep at hk ⊢
  cases hp : parseSbdf a.description with
  | none =>
    rw [hp] at hk
    exact h k hk
  | some s =>
    rw [hp] at hk
    replace hk : dictHasKey
        (if a.hbaName ∈ nat then dictInsert idx s a.hbaName else idx) k =
        true := hk
    show dictHasKey
        (if a.hbaName ∈ nat' then dictInsert idx' s a.hbaName else idx') k =
        true
    by_cases hm : a.hbaName ∈ nat
    · rw [if_pos hm] at hk
      rw [if_pos (hn hm)]
      simp only [dictHasKey, dictInsert, List.any_cons, Bool.or_eq_true]
        at hk ⊢
      rcases hk with hk | hk
      · exact Or.inl hk
      · exact Or.inr (h k hk)
    · rw [if_neg hm] at hk
      by_cases hm2 : a.hbaName ∈ nat'
      · rw [if_pos hm2]
        simp only [dictHasKey, dictInsert, List.any_cons, Bool.or_eq_true]
        exact Or.inr (h k hk)
      · rw [if_neg hm2]
        exact h k hk

/-- Folded version of `adapterIndexStep_mono`. -/
theorem adapterIndexFold_mono (nat nat' : Finset String) (hn : nat ⊆ nat')
    (l : List Adapter) :
    ∀ idx idx' : List (String × String),
      (∀ k, dictHasKey idx k = true → dictHasKey idx' k = true) →
      ∀ k, dictHasKey (l.foldl (adapterIndexStep nat) idx) k = true →
        dictHasKey (l.foldl (adapterIndexStep nat') idx') k = true := by
  induction l with
  | nil => intro idx idx' h k; exact h k
  | cons a l ih =>
    intro idx idx' h
    exact ih _ _ (adapterIndexStep_mono nat nat' hn idx idx' h a)

/-- The second adapter-loop body is monotone in the index keys and the
native set. -/
theorem adapterNativeStep_mono (idx idx' : List (String × String))
    (hidx : ∀ k, dictHasKey idx k = true → dictHasKey idx' k = true)
    (nat nat' : Finset String) (h : nat ⊆ nat') (a : Adapter) :
    adapterNativeStep idx nat a ⊆ adapterNativeStep idx' nat' a := by
  by_cases hnl : a.hbaName ∉ nat
  · unfold adapterNativeStep
    by_cases hu : a.uid.startsWith "usb." = true
    · rw [if_pos hu, if_pos hu]
      exact Finset.insert_subset_insert _ h
    · rw [if_neg hu, if_neg hu]
      by_cases hs : a.driver ∈ SOFTWARE_ADAPTER
      · rw [if_pos hs, if_pos hs]
        exact Finset.insert_subset_insert _ h
      · rw [if_neg hs, if_neg hs, if_pos hnl]
        by_cases hnr : a.hbaName ∉ nat'
        · rw [if_pos hnr]
          cases hp : parseSbdf a.description with
          | none => exact h
          | some s =>
            show (if dictHasKey idx s = true then insert a.hbaName nat
                else nat) ⊆
              (if dictHasKey idx' s = true then insert a.hbaName nat'
                else nat')
            by_cases hkey : dictHasKey idx s = true
            · rw [if_pos hkey, if_pos (hidx s hkey)]
              exact Finset.insert_subset_insert _ h
            · rw [if_neg hkey]
              by_cases hkey2 : dictHasKey idx' s = true
              · rw [if_pos hkey2]
                exact h.trans (Finset.subset_insert _ _)
              · rw [if_neg hkey2]
                exact h
        · rw [if_neg hnr]
          cases hp : parseSbdf a.description with
          | none => exact h
          | some s =>
            show (if dictHasKey idx s = true then insert a.hbaName nat
                else nat) ⊆ nat'
            by_cases hkey : dictHasKey idx s = true
            · rw [if_pos hkey]
              exact Finset.insert_subset_iff.mpr ⟨not_not.mp hnr, h⟩
            · rw [if_neg hkey]
              exact h
  · have hmem : a.hbaName ∈ nat := not_not.mp hnl
    have h1 : adapterNativeStep idx nat a ⊆ insert a.hbaName nat := by
      unfold adapterNativeStep
      split
      · exact Finset.Subset.refl _
      · split
        · exact Finset.Subset.refl _
        · exact Finset.subset_insert _ _
    have h2 : insert a.hbaName nat ⊆ adapterNativeStep idx' nat' a :=
      Finset.insert_subset_iff.mpr
        ⟨adapterNativeStep_mem idx' nat' a _ (h hmem),
         h.trans fun x hx => adapterNativeStep_mem idx' nat' a x hx⟩
    exact h1.trans h2

/-- Folded version of `adapterNativeStep_mono`. -/
theorem adapterNativeFold_mono (idx idx' : List (String × String))
    (hidx : ∀ k, dictHasKey idx k = true → dictHasKey idx' k = true)
    (l : List Adapter) :
    ∀ nat nat' : Finset String, nat ⊆ nat' →
      l.foldl (adapterNativeStep idx) nat ⊆
        l.foldl (adapterNativeStep idx') nat' := by
  induction l with
  | nil => intro nat nat' h; exact h
  | cons a l ih =>
    intro nat nat' h
    rw [List.foldl_cons, List.foldl_cons]
    exact ih _ _ (adapterNativeStep_mono idx idx' hidx nat nat' h a)

/-- Fold bodies of `extractPciTags` factor through the empty
accumulator. -/
theorem foldl_acc_append {α β : Type} (f : List α → β → List α)
    (hf : ∀ acc x, f acc x = acc ++ f [] x) :
    ∀ (l : List β) (acc : List α), l.foldl f acc = acc ++ l.foldl f [] := by
  intro l
  induction l with
  | nil => simp
  | cons x l ih =>
    intro acc
    rw [List.foldl_cons, ih, List.foldl_cons, hf acc x, ih (f [] x),
      List.append_assoc]

/-- Appending VIBs appends their extracted PCIID tags. -/
theorem extractPciTags_append (vibs extra : List Vib) :
    extractPciTags (vibs ++ extra) =
      extractPciTags vibs ++ extractPciTags extra := by
  have hf : ∀ (acc : List String) (v : Vib),
      (match v.swtags with
        | none => acc
        | some tags => acc ++ tags.filterMap parsePciidTag) =
      acc ++ (match v.swtags with
        | none => ([] : List String)
        | some tags => [] ++ tags.filterMap parsePciidTag) := by
    intro acc v
    cases v.swtags <;> simp
  unfold extractPciTags
  rw [List.foldl_append]
  exact foldl_acc_append _ hf extra _

/-- C8: for fixed PCI and adapter inventories, appending units to the
target profile (hence appending their PCIID device tags) never shrinks
the computed native-device set. -/
theorem C8_native_set_monotone (vibs extra : List Vib)
    (pciDevList : List PciDevice) (adapterList : List Adapter) :
    getNativeDevices vibs pciDevList adapterList ⊆
      getNativeDevices (vibs ++ extra) pciDevList adapterList := by
  have hsub : ∀ t ∈ extractPciTags vibs, t ∈ extractPciTags (vibs ++ extra) := by
    intro t ht
    rw [extractPciTags_append]
    exact List.mem_append_left _ ht
  have hscan := pciFold_mono (extractPciTags vibs)
    (extractPciTags (vibs ++ extra)) hsub pciDevList (∅, []) (∅, [])
    (Finset.Subset.refl _) (fun k h => h)
  have hidx := adapterIndexFold_mono _ _ hscan.1 adapterList _ _ hscan.2
  simp only [getNativeDevices]
  exact adapterNativeFold_mono _ _ hidx adapterList _ _ hscan.1

end Precheck
